import Mathlib

/-!
Verification of the EKB platform ingestion-and-enrichment core.

The repository ships the Rust SDK trait declarations
(`sdk_interfaces/connectors.rs`, `sdk_interfaces/functions.rs`) and a thin
axum gateway (`gateway/src/main.rs`).  The lifecycle state machine, stage
chain and pipeline executor described by the design document are contracts
over those traits; their bodies are not part of the repository, so they are
modelled here from the design document and checked against it, while the
trait signatures and the gateway are embedded from the source directly.
-/

namespace EKB

/-- The universal payload type: `serde_json::Value` as used by both SDK
traits (a tagged-union tree of null, booleans, numbers, strings, arrays and
string-keyed objects).  Numbers are modelled as integers; none of the
verified properties depends on numeric arithmetic. -/
inductive StructuredValue where
  | null
  | boolean (b : Bool)
  | number (n : Int)
  | string (s : String)
  | array (xs : List StructuredValue)
  | object (fields : List (String × StructuredValue))
deriving Repr

/-- An enrichment-function plugin, from the `EnrichmentFunction` trait in
`functions.rs`: `process(&self, data, config) -> Result<Value, String>`.
The `&self` receiver is an immutable borrow, so a call cannot mutate the
plugin; a plugin is therefore embedded as a pure function of the record and
its configuration. -/
abbrev EnrichmentFunction : Type :=
  StructuredValue → StructuredValue → Except String StructuredValue

/-- One stage of a pipeline: an enrichment function paired with its
configuration value. -/
abbrev Stage : Type := EnrichmentFunction × StructuredValue

/-- Result of running a stage chain on one record: either the transformed
record, or a failure carrying the index of the failing stage and its
message. -/
inductive ChainResult where
  | success (v : StructuredValue)
  | failure (stageIdx : Nat) (msg : String)
deriving Repr

/-- Modelled from the spec: §4.3 Pipeline Stage Chain (the chain-composition
code is absent from src/, which only declares the `EnrichmentFunction`
trait).  Applies the stages in declared order starting at stage index `idx`;
the output of each stage becomes the input of the next; the first failure
stops the traversal and is reported with its stage index and message. -/
def runChainFrom (stages : List Stage) (idx : Nat) (record : StructuredValue) :
    ChainResult :=
  match stages with
  | [] => .success record
  | (f, cfg) :: rest =>
    match f record cfg with
    | .ok out => runChainFrom rest (idx + 1) out
    | .error msg => .failure idx msg

/-- Modelled from the spec: §4.3 — run a whole stage chain on one record,
stage indices starting at 0. -/
def runChain (stages : List Stage) (record : StructuredValue) : ChainResult :=
  runChainFrom stages 0 record

/-- Instrumented stage-call count: how many `process` invocations a chain
traversal performs on a given record (the spec's short-circuit law is
"verified by instrumenting stage call counts"). -/
def chainCalls (stages : List Stage) (record : StructuredValue) : Nat :=
  match stages with
  | [] => 0
  | (f, cfg) :: rest =>
    match f record cfg with
    | .ok out => 1 + chainCalls rest out
    | .error _ => 1

theorem runChainFrom_shift (stages : List Stage) (idx : Nat)
    (r : StructuredValue) :
    runChainFrom stages idx r =
      match runChain stages r with
      | .success v => .success v
      | .failure k m => .failure (idx + k) m := by
  induction stages generalizing idx r with
  | nil => simp [runChainFrom, runChain]
  | cons s rest ih =>
    obtain ⟨f, cfg⟩ := s
    cases h : f r cfg with
    | ok out =>
      simp only [runChain, runChainFrom, h, Nat.zero_add]
      rw [ih (idx + 1) out, ih 1 out]
      cases runChain rest out with
      | success v => rfl
      | failure k m =>
        simp [Nat.add_assoc, Nat.add_comm 1 k]
    | error msg =>
      simp [runChain, runChainFrom, h]

theorem runChainFrom_append (s₁ s₂ : List Stage) (idx : Nat)
    (r : StructuredValue) :
    runChainFrom (s₁ ++ s₂) idx r =
      match runChainFrom s₁ idx r with
      | .success v => runChainFrom s₂ (idx + s₁.length) v
      | .failure k m => .failure k m := by
  induction s₁ generalizing idx r with
  | nil => simp [runChainFrom]
  | cons s rest ih =>
    obtain ⟨f, cfg⟩ := s
    cases h : f r cfg with
    | ok out =>
      simp only [List.cons_append, runChainFrom, h, List.append_eq]
      rw [ih (idx + 1) out]
      cases runChainFrom rest (idx + 1) out with
      | success v =>
        simp [List.length_cons, Nat.add_assoc, Nat.add_comm 1 rest.length]
      | failure k m => rfl
    | error msg =>
      simp [List.cons_append, runChainFrom, h]

theorem chainCalls_append (s₁ s₂ : List Stage) (r : StructuredValue) :
    chainCalls (s₁ ++ s₂) r =
      match runChain s₁ r with
      | .success v => chainCalls s₁ r + chainCalls s₂ v
      | .failure _ _ => chainCalls s₁ r := by
  induction s₁ generalizing r with
  | nil => simp [chainCalls, runChain, runChainFrom]
  | cons s rest ih =>
    obtain ⟨f, cfg⟩ := s
    cases h : f r cfg with
    | ok out =>
      simp only [List.cons_append, chainCalls, runChain, runChainFrom, h,
        List.append_eq, Nat.zero_add]
      rw [ih out, runChainFrom_shift rest 1 out]
      cases runChain rest out with
      | success v => simp [Nat.add_assoc]
      | failure k m => simp
    | error msg =>
      simp [List.cons_append, chainCalls, runChain, runChainFrom, h]

/-- The connector lifecycle states of the design document (§3): exactly one
`SourceConnector` instance owns this state. -/
inductive ConnState where
  | uninitialized
  | connected
  | exhausted
  | failed
  | closed
deriving Repr, DecidableEq

/-- Errors a lifecycle-enforced connector method can raise. -/
inductive ConnectorError where
  | invalidState
  | connectFailed (msg : String)
deriving Repr, DecidableEq

/-- Errors of the `schema` method. -/
inductive SchemaError where
  | invalidState
  | schemaUnavailable
deriving Repr, DecidableEq

/-- One element of a connector's record stream: a successful record
(`Ok(value)` from the `read_data` iterator) or a per-record failure
(`Err(msg)`). -/
inductive StreamItem where
  | record (v : StructuredValue)
  | recordFailure (msg : String)
deriving Repr

/-- How a connector's stream terminates once its items are consumed:
ordinary end-of-stream, or a distinguished fatal stream error. -/
inductive StreamEnd where
  | endOfStream
  | fatal (msg : String)
deriving Repr, DecidableEq

/-- The observable behavior of one concrete source-connector plugin:
whether `connect` succeeds, the items its stream yields, how the stream
terminates, and what `schema` can report before a connection exists
(`none` models a connector unable to determine its schema before
connecting). -/
structure SourceBehavior where
  connectError : Option String
  items : List StreamItem
  ending : StreamEnd
  preConnectSchema : Option StructuredValue
  connectedSchema : StructuredValue

/-- Modelled from the spec: §4.1's lifecycle-enforcing connector (src/ only
declares the `SourceConnector` trait; the state machine that "replaces any
implicit call-order contract with an explicit state value checked on every
call" is modelled here).  `remaining` is the pull cursor of the single-pass
stream; `resourcesHeld` tracks the underlying resources `close` must
release. -/
structure LifecycleConnector where
  state : ConnState
  behavior : SourceBehavior
  remaining : List StreamItem
  resourcesHeld : Bool

/-- Modelled from the spec: §4.1 `connect` — legal only when no connection
is live (Uninitialized, or again after `close` has completed); a re-entry
attempt from Connected, Exhausted or Failed fails with `InvalidState` and
leaves the connector untouched rather than silently reconnecting. -/
def connect (c : LifecycleConnector) (config : StructuredValue) :
    Except ConnectorError Unit × LifecycleConnector :=
  match c.state with
  | .uninitialized | .closed =>
    match c.behavior.connectError with
    | none =>
      (.ok (), { c with state := .connected, remaining := c.behavior.items,
                        resourcesHeld := true })
    | some m => (.error (.connectFailed m), c)
  | _ => (.error .invalidState, c)

/-- One advance of the lazy `read_data` cursor. -/
inductive ReadStep where
  | item (r : Except String StructuredValue)
  | endOfStream
  | fatalError (msg : String)
deriving Repr

/-- Modelled from the spec: §4.1 `read_data` as a pull-based cursor
(`advance() -> Option<Result<Record, String>>` per §9).  Advancing is legal
only in the Connected state: before `connect`, or after exhaustion,
failure or `close`, it fails with `InvalidState` and yields no record.
Consuming the last item transitions Connected → Exhausted on ordinary
end-of-stream and Connected → Failed on a fatal stream error. -/
def advance (c : LifecycleConnector) :
    Except ConnectorError ReadStep × LifecycleConnector :=
  match c.state with
  | .connected =>
    match c.remaining with
    | [] =>
      match c.behavior.ending with
      | .endOfStream => (.ok .endOfStream, { c with state := .exhausted })
      | .fatal m => (.ok (.fatalError m), { c with state := .failed })
    | .record v :: rest => (.ok (.item (.ok v)), { c with remaining := rest })
    | .recordFailure m :: rest =>
      (.ok (.item (.error m)), { c with remaining := rest })
  | _ => (.error .invalidState, c)

/-- Modelled from the spec: §4.1 `schema` — callable in any state except
Closed, never touches the connector (the read path is unaffected); a
connector unable to determine its schema before connecting reports
`SchemaUnavailable` instead of blocking. -/
def schema (c : LifecycleConnector) :
    Except SchemaError StructuredValue × LifecycleConnector :=
  match c.state with
  | .closed => (.error .invalidState, c)
  | .uninitialized =>
    match c.behavior.preConnectSchema with
    | some s => (.ok s, c)
    | none => (.error .schemaUnavailable, c)
  | _ => (.ok c.behavior.connectedSchema, c)

/-- Modelled from the spec: §4.1 `close` — accepted from every state
(a no-op release from Uninitialized), transitions to Closed and releases
all underlying resources even if the stream was abandoned mid-iteration. -/
def close (c : LifecycleConnector) :
    Except ConnectorError Unit × LifecycleConnector :=
  (.ok (), { c with state := .closed, resourcesHeld := false })

/-- The per-record outcome reported to the sink: the transformed record, or
a failure carrying the originating stage index (`none` when the connector
itself yielded the per-record failure, so no stage ran) and a message. -/
inductive RecordOutcome where
  | success (v : StructuredValue)
  | failure (stageIdx : Option Nat) (msg : String)
deriving Repr

/-- Flow completion status reported once at flow end (§4.4 step 5). -/
inductive FlowStatus where
  | completed
  | completedWithErrors
  | failed
  | cancelled
deriving Repr, DecidableEq

/-- The outcome the executor produces for one stream item: a successful
record is run through the stage chain; a per-record failure from the
connector is forwarded without running the chain. -/
def outcomeOf (chain : List Stage) : StreamItem → RecordOutcome
  | .record v =>
    match runChain chain v with
    | .success w => .success w
    | .failure k m => .failure (some k) m
  | .recordFailure m => .failure none m

/-- Whether the (cooperative, record-boundary) cancellation signal has been
observed: `some n` models a signal that becomes visible once `n` records
have been processed; `none` models a flow that is never cancelled. -/
def cancelRequested : Option Nat → Nat → Bool
  | none, _ => false
  | some n, processed => n ≤ processed

/-- Modelled from the spec: §4.4 step 2's pull loop (the executor is absent
from src/).  Checks cancellation at each record boundary, otherwise pulls
the next item and forwards its outcome; returns the outcomes in stream
order and whether the loop stopped because of cancellation. -/
def pullLoop (chain : List Stage) (cancel : Option Nat) :
    List StreamItem → Nat → List RecordOutcome × Bool
  | items, processed =>
    if cancelRequested cancel processed then ([], true)
    else
      match items with
      | [] => ([], false)
      | it :: rest =>
        let next := pullLoop chain cancel rest (processed + 1)
        (outcomeOf chain it :: next.1, next.2)

/-- The observable result of one flow execution: the per-record outcomes in
delivery order, the flow status, and how many times `close` was called on
the source connector. -/
structure RunResult where
  outcomes : List RecordOutcome
  status : FlowStatus
  closeCalls : Nat
deriving Repr

/-- Whether an outcome is a per-record failure. -/
def RecordOutcome.isFailure : RecordOutcome → Bool
  | .success _ => false
  | .failure _ _ => true

/-- Modelled from the spec: §4.4 `run(sink)` (the pipeline executor is
absent from src/).  Step 1: `connect`; on failure report the flow-level
startup failure and terminate without reading.  Step 2: pull the stream,
forwarding one outcome per item.  Step 3: classify the ending.  Step 4:
`close` unconditionally.  Step 5: report Completed, CompletedWithErrors,
Failed, or Cancelled. -/
def run (src : SourceBehavior) (chain : List Stage) (cancel : Option Nat) :
    RunResult :=
  match src.connectError with
  | some _ => { outcomes := [], status := .failed, closeCalls := 1 }
  | none =>
    let pulled := pullLoop chain cancel src.items 0
    let status :=
      if pulled.2 then FlowStatus.cancelled
      else
        match src.ending with
        | .endOfStream =>
          if pulled.1.any RecordOutcome.isFailure then
            FlowStatus.completedWithErrors
          else FlowStatus.completed
        | .fatal _ => FlowStatus.failed
    { outcomes := pulled.1, status := status, closeCalls := 1 }

/-- One sink callback. -/
inductive SinkEvent where
  | onRecord (o : RecordOutcome)
  | onComplete (s : FlowStatus)
deriving Repr

/-- The sink callback sequence of a run: `onRecord` once per outcome in
delivery order, then `onComplete` exactly once at flow end (§6). -/
def sinkEvents (r : RunResult) : List SinkEvent :=
  r.outcomes.map SinkEvent.onRecord ++ [SinkEvent.onComplete r.status]

/-- Whether a sink event is an `onComplete` callback. -/
def SinkEvent.isComplete : SinkEvent → Bool
  | .onRecord _ => false
  | .onComplete _ => true

theorem pullLoop_no_cancel (chain : List Stage) (items : List StreamItem)
    (n : Nat) :
    pullLoop chain none items n = (items.map (outcomeOf chain), false) := by
  induction items generalizing n with
  | nil => simp [pullLoop, cancelRequested]
  | cons it rest ih => simp [pullLoop, cancelRequested, ih]

/-- One caller-visible connector operation, for stating frame properties
over whole operation sequences. -/
inductive ConnectorOp where
  | connectOp
  | advanceOp
  | schemaOp
  | closeOp
deriving Repr, DecidableEq

/-- One caller-visible operation together with the caller-owned
configuration value.  In the `SourceConnector` trait, `connect` borrows the
configuration immutably (`config: &serde_json::Value`, connectors.rs) and
no other method receives it at all, so each operation hands the caller's
configuration back alongside the updated connector. -/
def stepOp (c : LifecycleConnector) (config : StructuredValue) :
    ConnectorOp → LifecycleConnector × StructuredValue
  | .connectOp => ((connect c config).2, config)
  | .advanceOp => ((advance c).2, config)
  | .schemaOp => ((schema c).2, config)
  | .closeOp => ((close c).2, config)

/-- Runs a whole sequence of connector operations, threading the
caller-owned configuration value through every call. -/
def runOps (c : LifecycleConnector) (config : StructuredValue) :
    List ConnectorOp → LifecycleConnector × StructuredValue
  | [] => (c, config)
  | op :: rest => runOps (stepOp c config op).1 (stepOp c config op).2 rest

/-- A sequence of `process` invocations on one enrichment function, each
with its own record and configuration, in call order.  The trait's `&self`
receiver leaves a conforming implementation no cross-call state, so an
invocation is the pure application of the function to its arguments. -/
def processCalls (f : EnrichmentFunction)
    (calls : List (StructuredValue × StructuredValue)) :
    List (Except String StructuredValue) :=
  calls.map fun p => f p.1 p.2

namespace Gateway

/-- HTTP methods the gateway model distinguishes. -/
inductive Method where
  | get
  | post
deriving Repr, DecidableEq

/-- One registered route: method, path, and the fixed response body its
handler returns. -/
structure Route where
  method : Method
  path : String
  response : String
deriving Repr, DecidableEq

/-- The gateway's only handler (`handler` in gateway/src/main.rs): a fixed
greeting body. -/
def handler : String := "Hello, EKB Gateway!"

/-- The gateway's router (`main` in gateway/src/main.rs):
`Router::new().route("/", get(handler))` — a single route. -/
def appRoutes : List Route :=
  [{ method := .get, path := "/", response := handler }]

/-- Routing: the response produced for a request, if any route matches. -/
def respond (routes : List Route) (m : Method) (p : String) : Option String :=
  (routes.find? fun r => r.method == m && r.path == p).map Route.response

end Gateway

/-! Concrete fixtures used by witness theorems. -/

/-- A concrete connector behavior: one record, a clean ending, no
pre-connect schema. -/
def sampleBehavior : SourceBehavior :=
  { connectError := none
    items := [.record .null]
    ending := .endOfStream
    preConnectSchema := none
    connectedSchema := .null }

/-- A connector on which `connect` has not been called yet. -/
def freshConnector : LifecycleConnector :=
  { state := .uninitialized, behavior := sampleBehavior, remaining := [],
    resourcesHeld := false }

/-- A connector with a live connection. -/
def liveConnector : LifecycleConnector :=
  { state := .connected, behavior := sampleBehavior,
    remaining := sampleBehavior.items, resourcesHeld := true }

/-- An enrichment function that passes every record through unchanged. -/
def passStage : EnrichmentFunction := fun r _ => .ok r

/-- An enrichment function that rejects every record. -/
def failStage : EnrichmentFunction := fun _ _ => .error "boom"

/-! Claim theorems. -/

/-- Claim C1: for every source connector, advancing the `read_data` stream
before `connect` has succeeded fails with the `InvalidState` error and
yields no record, leaving the connector untouched; and `connect` called
again before `close` has completed (from Connected, Exhausted or Failed)
also fails with the `InvalidState` error and leaves the connector unchanged
rather than silently reconnecting. -/
theorem read_before_connect_invalid (c : LifecycleConnector)
    (config : StructuredValue) :
    (c.state = .uninitialized →
      advance c = (.error .invalidState, c)) ∧
    (c.state = .connected ∨ c.state = .exhausted ∨ c.state = .failed →
      connect c config = (.error .invalidState, c)) := by
  constructor
  · intro h
    simp [advance, h]
  · rintro (h | h | h) <;> simp [connect, h]

theorem read_before_connect_invalid_witness :
    advance freshConnector = (.error .invalidState, freshConnector) ∧
    connect liveConnector .null = (.error .invalidState, liveConnector) :=
  ⟨(read_before_connect_invalid freshConnector .null).1 rfl,
   (read_before_connect_invalid liveConnector .null).2 (Or.inl rfl)⟩

/-- Claim C2: every flow execution by the pipeline executor calls `close`
on the source connector exactly once — for every connector behavior
(including a failing `connect` and a fatal stream ending) and every
cancellation point. -/
theorem run_closes_exactly_once (src : SourceBehavior) (chain : List Stage)
    (cancel : Option Nat) : (run src chain cancel).closeCalls = 1 := by
  unfold run
  cases src.connectError <;> simp

/-- Claim C6: from every lifecycle state — Uninitialized, Connected,
Exhausted, Failed, or Closed — `close` is accepted (returns Ok) and
transitions the connector to Closed, releasing all underlying resources
regardless of any unread stream items; a second `close` is equally
accepted and leaves the connector Closed. -/
theorem close_accepted_from_every_state (c : LifecycleConnector) :
    (close c).1 = .ok () ∧
    (close c).2.state = .closed ∧
    (close c).2.resourcesHeld = false ∧
    (close (close c).2).1 = .ok () ∧
    (close (close c).2).2.state = .closed := by
  simp [close]

/-- Claim C8: the caller's configuration Structured Value is unchanged by
`connect` and by every later connector operation — for every starting
connector, every configuration value and every sequence of operations, the
configuration the caller holds after the sequence is the one supplied. -/
theorem config_read_only (c : LifecycleConnector) (config : StructuredValue)
    (ops : List ConnectorOp) : (runOps c config ops).2 = config := by
  induction ops generalizing c with
  | nil => rfl
  | cons op rest ih => cases op <;> simp [runOps, stepOp, ih]

/-- Claim C9: `schema` leaves the connector — its lifecycle state and its
in-progress read cursor — completely unchanged in every state; in every
state except Closed it never fails with the `InvalidState` error; and a
connector unable to determine its schema before connecting reports
`SchemaUnavailable`. -/
theorem schema_frame_and_unavailable (c : LifecycleConnector) :
    (schema c).2 = c ∧
    (c.state ≠ .closed → (schema c).1 ≠ .error .invalidState) ∧
    (c.state = .uninitialized → c.behavior.preConnectSchema = none →
      (schema c).1 = .error .schemaUnavailable) := by
  obtain ⟨st, ⟨ce, its, en, pcs, cs⟩, rem, res⟩ := c
  cases st <;> cases pcs <;> simp [schema]

theorem schema_frame_and_unavailable_witness :
    (schema freshConnector).1 = .error .schemaUnavailable :=
  (schema_frame_and_unavailable freshConnector).2.2 rfl rfl

theorem chainCalls_of_success (stages : List Stage) (r v : StructuredValue)
    (h : runChain stages r = .success v) :
    chainCalls stages r = stages.length := by
  induction stages generalizing r v with
  | nil => rfl
  | cons s rest ih =>
    obtain ⟨f, cfg⟩ := s
    cases hf : f r cfg with
    | ok out =>
      simp only [runChain, runChainFrom, hf] at h
      rw [runChainFrom_shift] at h
      cases hr : runChain rest out with
      | success w =>
        simp [chainCalls, hf, ih out w hr, Nat.add_comm]
      | failure k m => rw [hr] at h; exact absurd h (by simp)
    | error msg =>
      simp only [runChain, runChainFrom, hf] at h
      exact absurd h (by simp)

/-- Claim C3: short-circuit and composition of the stage chain.  When the
stages before stage `k = pre.length` transform the record to `v`: if stage
`k` fails with `msg`, the whole record is reported failed at stage `k`
carrying that index and message, and the stages after `k` are not
executed — exactly `k + 1` process calls are made, whatever stages follow;
if stage `k` instead succeeds with output `w`, the chain continues with the
remaining stages applied to `w` (the output of each stage is the input of
the next), so an all-success chain yields the transformed record. -/
theorem stage_chain_short_circuit (pre post : List Stage)
    (f : EnrichmentFunction) (cfg r v : StructuredValue)
    (hpre : runChain pre r = .success v) :
    (∀ msg, f v cfg = .error msg →
      runChain (pre ++ (f, cfg) :: post) r = .failure pre.length msg ∧
      chainCalls (pre ++ (f, cfg) :: post) r = pre.length + 1) ∧
    (∀ w, f v cfg = .ok w →
      runChain (pre ++ (f, cfg) :: post) r =
        runChainFrom post (pre.length + 1) w) := by
  have hrun : runChain (pre ++ (f, cfg) :: post) r =
      runChainFrom ((f, cfg) :: post) pre.length v := by
    show runChainFrom (pre ++ (f, cfg) :: post) 0 r = _
    rw [runChainFrom_append]
    show (match runChain pre r with
          | .success w => runChainFrom ((f, cfg) :: post) (0 + pre.length) w
          | .failure k m => .failure k m) = _
    rw [hpre]
    simp [Nat.zero_add]
  have hcalls : chainCalls (pre ++ (f, cfg) :: post) r =
      pre.length + chainCalls ((f, cfg) :: post) v := by
    rw [chainCalls_append, hpre, chainCalls_of_success pre r v hpre]
  constructor
  · intro msg hmsg
    constructor
    · rw [hrun]
      simp [runChainFrom, hmsg]
    · rw [hcalls]
      simp [chainCalls, hmsg]
  · intro w hw
    rw [hrun]
    simp [runChainFrom, hw]

theorem stage_chain_short_circuit_witness :
    runChain [(passStage, .null), (failStage, .null), (passStage, .null)]
        .null = .failure 1 "boom" ∧
    chainCalls [(passStage, .null), (failStage, .null), (passStage, .null)]
        .null = 2 :=
  (stage_chain_short_circuit [(passStage, .null)] [(passStage, .null)]
      failStage .null .null .null rfl).1 "boom" rfl

theorem outcome_not_failure_of_ok (chain : List Stage) (it : StreamItem)
    (h : ∃ v w, it = .record v ∧ runChain chain v = .success w) :
    (outcomeOf chain it).isFailure = false := by
  obtain ⟨v, w, rfl, hw⟩ := h
  simp [outcomeOf, hw, RecordOutcome.isFailure]

theorem filter_isFailure_nil (chain : List Stage) (l : List StreamItem)
    (h : ∀ it ∈ l, (outcomeOf chain it).isFailure = false) :
    (l.map (outcomeOf chain)).filter RecordOutcome.isFailure = [] := by
  induction l with
  | nil => rfl
  | cons it rest ih =>
    have h1 := h it (List.mem_cons_self it rest)
    have h2 := ih fun x hx => h x (List.mem_cons_of_mem _ hx)
    simp [List.filter_cons, h1, h2]

/-- Claim C4: fault isolation.  For every stream in which one item is a
per-record failure and every other item is a record the stage chain
accepts (with `connect` succeeding, ordinary end-of-stream, and no
cancellation), the executor forwards exactly one per-record failure and
one success outcome per valid record, the stream runs to its end (one
outcome per stream item), and the flow status is `CompletedWithErrors` —
the single failed record does not terminate the stream. -/
theorem executor_fault_isolation (src : SourceBehavior) (chain : List Stage)
    (pre post : List StreamItem) (m : String)
    (hc : src.connectError = none) (he : src.ending = .endOfStream)
    (hi : src.items = pre ++ .recordFailure m :: post)
    (hok : ∀ it ∈ pre ++ post,
      ∃ v w, it = .record v ∧ runChain chain v = .success w) :
    (run src chain none).outcomes =
      pre.map (outcomeOf chain) ++
        .failure none m :: post.map (outcomeOf chain) ∧
    ((run src chain none).outcomes.filter RecordOutcome.isFailure).length
      = 1 ∧
    (run src chain none).outcomes.length = src.items.length ∧
    (run src chain none).status = .completedWithErrors := by
  have houts : (run src chain none).outcomes =
      src.items.map (outcomeOf chain) := by
    simp [run, hc, pullLoop_no_cancel]
  have hpreok : ∀ it ∈ pre, (outcomeOf chain it).isFailure = false :=
    fun it hit =>
      outcome_not_failure_of_ok chain it (hok it (List.mem_append_left _ hit))
  have hpostok : ∀ it ∈ post, (outcomeOf chain it).isFailure = false :=
    fun it hit =>
      outcome_not_failure_of_ok chain it (hok it (List.mem_append_right _ hit))
  have hmid : (outcomeOf chain (.recordFailure m)).isFailure = true := rfl
  refine ⟨?_, ?_, ?_, ?_⟩
  · rw [houts, hi]
    simp [List.map_append, outcomeOf]
  · rw [houts, hi]
    simp only [List.map_append, List.map_cons, List.filter_append,
      List.filter_cons]
    rw [filter_isFailure_nil chain pre hpreok,
      filter_isFailure_nil chain post hpostok]
    simp [outcomeOf, RecordOutcome.isFailure]
  · rw [houts]
    simp
  · have hany : (src.items.map (outcomeOf chain)).any
        RecordOutcome.isFailure = true := by
      rw [hi]
      simp only [List.map_append, List.map_cons, List.any_append,
        List.any_cons]
      simp [outcomeOf, RecordOutcome.isFailure]
    simp [run, hc, he, pullLoop_no_cancel, hany]

/-- A connector behavior whose stream is one bad record followed by two
good ones, ending cleanly. -/
def faultySource : SourceBehavior :=
  { connectError := none
    items := [.recordFailure "bad", .record .null, .record (.boolean true)]
    ending := .endOfStream
    preConnectSchema := none
    connectedSchema := .null }

theorem executor_fault_isolation_witness :
    (run faultySource [] none).outcomes =
      List.map (outcomeOf []) [] ++
        .failure none "bad" ::
          List.map (outcomeOf []) [.record .null, .record (.boolean true)] ∧
    ((run faultySource [] none).outcomes.filter
      RecordOutcome.isFailure).length = 1 ∧
    (run faultySource [] none).outcomes.length =
      faultySource.items.length ∧
    (run faultySource [] none).status = .completedWithErrors :=
  executor_fault_isolation faultySource [] []
    [.record .null, .record (.boolean true)] "bad" rfl rfl rfl
    (by
      intro it hit
      simp only [List.nil_append, List.mem_cons, List.not_mem_nil,
        or_false] at hit
      rcases hit with h | h <;> subst h
      · exact ⟨.null, .null, rfl, rfl⟩
      · exact ⟨.boolean true, .boolean true, rfl, rfl⟩)

/-- Claim C5: order preservation.  For every connector whose stream yields
only records the stage chain accepts (no failures), the sink receives
exactly the corresponding outcomes, one `onRecord` per record in delivery
order, followed by `onComplete` with status `Completed`; `onComplete`
occurs exactly once in the sink callback sequence. -/
theorem executor_order_preservation (src : SourceBehavior)
    (chain : List Stage)
    (hc : src.connectError = none) (he : src.ending = .endOfStream)
    (hok : ∀ it ∈ src.items,
      ∃ v w, it = .record v ∧ runChain chain v = .success w) :
    sinkEvents (run src chain none) =
      src.items.map (fun it => SinkEvent.onRecord (outcomeOf chain it)) ++
        [SinkEvent.onComplete .completed] ∧
    ((sinkEvents (run src chain none)).filter SinkEvent.isComplete).length
      = 1 := by
  have houts : (run src chain none).outcomes =
      src.items.map (outcomeOf chain) := by
    simp [run, hc, pullLoop_no_cancel]
  have hnone : (src.items.map (outcomeOf chain)).any
      RecordOutcome.isFailure = false := by
    rw [List.any_eq_false]
    intro o ho
    rw [List.mem_map] at ho
    obtain ⟨it, hit, rfl⟩ := ho
    simp [outcome_not_failure_of_ok chain it (hok it hit)]
  have hstat : (run src chain none).status = .completed := by
    simp [run, hc, he, pullLoop_no_cancel, hnone]
  constructor
  · rw [sinkEvents, houts, hstat, List.map_map]
    rfl
  · rw [sinkEvents]
    simp only [List.filter_append, List.filter_cons, List.filter_nil]
    have hfil : List.filter SinkEvent.isComplete
        (List.map SinkEvent.onRecord (run src chain none).outcomes) = [] := by
      rw [List.filter_eq_nil_iff]
      intro e he'
      rw [List.mem_map] at he'
      obtain ⟨o, _, rfl⟩ := he'
      simp [SinkEvent.isComplete]
    rw [hfil]
    rfl

/-- A connector behavior yielding three distinct good records. -/
def orderedSource : SourceBehavior :=
  { connectError := none
    items := [.record (.number 1), .record (.number 2), .record (.number 3)]
    ending := .endOfStream
    preConnectSchema := none
    connectedSchema := .null }

theorem executor_order_preservation_witness :
    sinkEvents (run orderedSource [] none) =
      orderedSource.items.map
        (fun it => SinkEvent.onRecord (outcomeOf [] it)) ++
        [SinkEvent.onComplete .completed] ∧
    ((sinkEvents (run orderedSource [] none)).filter
      SinkEvent.isComplete).length = 1 :=
  executor_order_preservation orderedSource [] rfl rfl
    (by
      intro it hit
      simp only [orderedSource, List.mem_cons, List.not_mem_nil,
        or_false] at hit
      rcases hit with h | h | h <;> subst h
      · exact ⟨.number 1, .number 1, rfl, rfl⟩
      · exact ⟨.number 2, .number 2, rfl, rfl⟩
      · exact ⟨.number 3, .number 3, rfl, rfl⟩)

/-- Claim C7: `process` is pure with respect to cross-record state.  In any
call sequence, the invocation at a given position returns exactly the
function applied to that call's record and configuration, whatever calls
come before or after it — so two invocations with the same record and
configuration always agree — and reordering a call sequence merely reorders
the results, making parallel or reordered invocation across records safe. -/
theorem enrichment_process_pure (f : EnrichmentFunction)
    (rec cfg : StructuredValue)
    (calls₁ calls₂ : List (StructuredValue × StructuredValue)) :
    (processCalls f (calls₁ ++ [(rec, cfg)])).getLast? = some (f rec cfg) ∧
    (calls₁.Perm calls₂ →
      (processCalls f calls₁).Perm (processCalls f calls₂)) := by
  constructor
  · simp [processCalls]
  · exact fun h => h.map _

theorem enrichment_process_pure_witness :
    (processCalls passStage
        [(.null, .null), (.boolean true, .null)]).getLast? =
      some (passStage (.boolean true) .null) ∧
    (processCalls passStage [(.null, .null), (.boolean true, .null)]).Perm
      (processCalls passStage [(.boolean true, .null), (.null, .null)]) :=
  ⟨(enrichment_process_pure passStage (.boolean true) .null
      [(.null, .null)] [] ).1,
   (enrichment_process_pure passStage (.boolean true) .null
      [(.null, .null), (.boolean true, .null)]
      [(.boolean true, .null), (.null, .null)]).2
    (List.Perm.swap _ _ _)⟩

/-- Claim C10: the gateway answers a GET request to "/" with the fixed body
"Hello, EKB Gateway!", and "/" under GET is the only route its router can
match: any request that gets a response is GET "/" with that body. -/
theorem gateway_root_route :
    Gateway.respond Gateway.appRoutes .get "/" =
      some "Hello, EKB Gateway!" ∧
    ∀ m p, (Gateway.respond Gateway.appRoutes m p).isSome →
      m = .get ∧ p = "/" ∧
      Gateway.respond Gateway.appRoutes m p =
        some "Hello, EKB Gateway!" := by
  constructor
  · rfl
  · intro m p h
    cases m with
    | get =>
      by_cases hp : p = "/"
      · subst hp
        exact ⟨rfl, rfl, rfl⟩
      · exfalso
        have hb : ("/" == p) = false :=
          beq_eq_false_iff_ne.mpr fun e => hp e.symm
        simp [Gateway.respond, Gateway.appRoutes, List.find?, hb] at h
    | post =>
      exfalso
      have hb : (Gateway.Method.get == Gateway.Method.post) = false := by
        decide
      simp [Gateway.respond, Gateway.appRoutes, List.find?, hb] at h

theorem gateway_root_route_witness :
    Gateway.Method.get = Gateway.Method.get ∧ "/" = "/" ∧
    Gateway.respond Gateway.appRoutes .get "/" =
      some "Hello, EKB Gateway!" :=
  gateway_root_route.2 .get "/" (by decide)

end EKB
